import Mathlib

/-!
Shallow embedding of the requirement-gathering conversational state machine of
`src/Backend/agent_E.py` (class `AgentHandler`), together with proofs of the
spec's claims about it.

Modelling conventions:
* The LangGraph `AgentState` TypedDict becomes the `AgentState` structure.  A
  key that may be absent from the Python dict is modelled by its falsy default
  wherever the source only ever distinguishes "absent or falsy" (the
  checklists, `extracted_requirements`), and by `Option` where the source
  distinguishes absence (`next`, read via `state.get("next")`).
* Python dicts (insertion ordered) become association lists; `dictSet` models
  `d[k] = v` (value replaced in place, position kept) and `dictUpdate` models
  `d.update(other)`.
* The two LLM collaborators (`self.llm.invoke` returning free text and
  `checklist_generator_llm.invoke` returning a structured checklist) are an
  explicit `LLMClient` record of oracle functions, so every run is a pure
  function of the client and the state.
* `json.loads` is modelled by `jsonLoads`, a parser for flat JSON objects with
  string keys and string values (the shape the extraction prompt requests);
  any reply outside that fragment is a decode failure, matching the
  `except (json.JSONDecodeError, TypeError)` path.
* One `astream` invocation of the compiled graph is `runTurn`: the conditional
  entry point, then the node sequence, with the graph's `messages` channel
  accumulating (`operator.add`) while the caller's `final_state.update(...)`
  overwrites every key it receives — both applications are modelled
  separately (`applyChannel` vs `applyUpdate`).
-/

namespace AgentE

/-- Message roles: `SystemMessage` / `HumanMessage` from the source. -/
inductive Role where
  | system
  | human
deriving DecidableEq, Repr

/-- One entry of the `messages` log. -/
structure Message where
  role : Role
  content : String
deriving DecidableEq, Repr

/-- The structured output schema `RequirementChecklist` (Pydantic model). -/
structure RequirementChecklist where
  category : String
  essential_checklist : List String
  optional_checklist : List String
deriving DecidableEq, Repr

/-- The LLM collaborators: `complete` models `self.llm.invoke(prompt).content`,
`completeChecklist` models `self.checklist_generator_llm.invoke(prompt)`. -/
structure LLMClient where
  complete : String → String
  completeChecklist : String → RequirementChecklist

/-- The `AgentState` TypedDict of the source. -/
structure AgentState where
  initial_query : String
  category : String
  essential_checklist : List String
  optional_checklist : List String
  extracted_requirements : List (String × String)
  messages : List Message
  next : Option String
deriving DecidableEq, Repr

/-! ## Python dict semantics over association lists -/

/-- `list(d.keys())` of a Python dict. -/
def dictKeys (d : List (String × String)) : List String := d.map Prod.fst

/-- `k in d` for a Python dict. -/
def dictMem (d : List (String × String)) (k : String) : Bool :=
  d.any (fun p => p.1 == k)

/-- The value stored under `k`, if any. -/
def dictFind : List (String × String) → String → Option String
  | [], _ => none
  | p :: rest, k => if p.1 == k then some p.2 else dictFind rest k

/-- `d.get(k, dflt)` of a Python dict. -/
def dictGet (d : List (String × String)) (k dflt : String) : String :=
  (dictFind d k).getD dflt

/-- `d[k] = v`: replaces the value in place when `k` is present (its position
is kept, as in a Python dict), otherwise appends the new pair. -/
def dictSet : List (String × String) → String → String → List (String × String)
  | [], k, v => [(k, v)]
  | p :: rest, k, v => if p.1 == k then (k, v) :: rest else p :: dictSet rest k v

/-- `d.update(new)`: every pair of `new` is stored in order, last write wins. -/
def dictUpdate (d new : List (String × String)) : List (String × String) :=
  new.foldl (fun acc p => dictSet acc p.1 p.2) d

/-! ## Python string helpers: find, rfind, slicing, title() -/

/-- Index of the first occurrence of `c` (`str.find`, `none` for `-1`). -/
def findIdx (c : Char) : List Char → Option Nat
  | [] => none
  | x :: xs => if x = c then some 0 else (findIdx c xs).map (· + 1)

/-- Index of the last occurrence of `c` (`str.rfind`, `none` for `-1`). -/
def rfindIdx (c : Char) : List Char → Option Nat
  | [] => none
  | x :: xs =>
    match rfindIdx c xs with
    | some i => some (i + 1)
    | none => if x = c then some 0 else none

/-- `s.find(c)` with `none` standing for `-1`. -/
def pyFind (s : String) (c : Char) : Option Nat := findIdx c s.toList

/-- `s.rfind(c)` with `none` standing for `-1`. -/
def pyRfind (s : String) (c : Char) : Option Nat := rfindIdx c s.toList

/-- `l[a:b]` on a character list: empty when `a ≥ b`, as in Python. -/
def pySlice (l : List Char) (a b : Nat) : List Char := (l.drop a).take (b - a)

/-- One pass of Python `str.title()` over ASCII: an alphabetic character is
uppercased after a non-alphabetic one and lowercased after an alphabetic one.
The boolean argument records whether the previous character was alphabetic. -/
def pyTitleAux : Bool → List Char → List Char
  | _, [] => []
  | prevAlpha, c :: cs =>
    (if c.isAlpha then (if prevAlpha then c.toLower else c.toUpper) else c)
      :: pyTitleAux c.isAlpha cs

/-- Python `str.title()` restricted to ASCII letters. -/
def pyTitle (s : String) : String := String.mk (pyTitleAux false s.toList)

/-- Python `repr` of a string as it appears inside an f-string of a list or
dict (quote escaping inside the value is not needed by any claim). -/
def pyRepr (s : String) : String := "'" ++ s ++ "'"

/-- Python f-string rendering of a list of strings. -/
def pyReprList (l : List String) : String :=
  "[" ++ String.intercalate ", " (l.map pyRepr) ++ "]"

/-- Python f-string rendering of a dict of strings. -/
def pyReprDict (d : List (String × String)) : String :=
  "\x7b" ++ String.intercalate ", " (d.map (fun p => pyRepr p.1 ++ ": " ++ pyRepr p.2))
    ++ "\x7d"

/-! ## A model of `json.loads` on flat string-to-string objects -/

/-- Skip JSON whitespace. -/
def skipWs : List Char → List Char
  | [] => []
  | c :: cs => if c = ' ' || c = '\n' || c = '\t' || c = '\r' then skipWs cs else c :: cs

/-- Parse the body of a JSON string after its opening quote: the decoded
characters and the remainder after the closing quote.  Escapes outside the
modelled set make the whole decode fail. -/
def parseJsonStringAux : List Char → Option (List Char × List Char)
  | [] => none
  | c :: cs =>
    if c = '"' then some ([], cs)
    else if c = '\\' then
      match cs with
      | [] => none
      | e :: cs2 =>
        let esc : Option Char :=
          if e = '"' then some '"'
          else if e = '\\' then some '\\'
          else if e = '/' then some '/'
          else if e = 'n' then some '\n'
          else if e = 't' then some '\t'
          else if e = 'r' then some '\r'
          else none
        match esc with
        | none => none
        | some ch =>
          match parseJsonStringAux cs2 with
          | none => none
          | some (chars, rest) => some (ch :: chars, rest)
    else
      match parseJsonStringAux cs with
      | none => none
      | some (chars, rest) => some (c :: chars, rest)

/-- Parse `"key": "value"` members after the opening brace, in source order,
returning the pair list and the remainder after the closing brace.  The fuel
only bounds recursion; `jsonLoads` supplies more than the input length. -/
def parseObjBody : Nat → List Char → List (String × String) →
    Option (List (String × String) × List Char)
  | 0, _, _ => none
  | fuel + 1, l, acc =>
    match skipWs l with
    | '"' :: rest =>
      match parseJsonStringAux rest with
      | none => none
      | some (kchars, rest1) =>
        match skipWs rest1 with
        | ':' :: rest2 =>
          match skipWs rest2 with
          | '"' :: rest3 =>
            match parseJsonStringAux rest3 with
            | none => none
            | some (vchars, rest4) =>
              match skipWs rest4 with
              | ',' :: rest5 =>
                parseObjBody fuel rest5 (acc ++ [(String.mk kchars, String.mk vchars)])
              | '}' :: rest5 =>
                some (acc ++ [(String.mk kchars, String.mk vchars)], rest5)
              | _ => none
          | _ => none
        | _ => none
    | _ => none

/-- The member pairs of a flat JSON object, in source order, or `none` when
the text is not such an object followed only by whitespace. -/
def jsonLoadsPairs (s : String) : Option (List (String × String)) :=
  match skipWs s.toList with
  | '{' :: rest =>
    match skipWs rest with
    | '}' :: rest2 => if skipWs rest2 = [] then some [] else none
    | _ =>
      match parseObjBody (s.toList.length + 1) rest [] with
      | none => none
      | some (pairs, rest2) => if skipWs rest2 = [] then some pairs else none
  | _ => none

/-- `json.loads` restricted to flat objects with string keys and string
values, the shape the extraction prompt requests; anything else is a decode
failure (`none`), which the source catches.  Duplicate keys keep the last
value, as Python's dict construction does (`dictUpdate []`). -/
def jsonLoads (s : String) : Option (List (String × String)) :=
  (jsonLoadsPairs s).map (dictUpdate [])

/-! ## The parser's JSON-salvaging logic (`_update_and_parse_node`'s try block) -/

/-- The candidate JSON payload: the slice of the raw reply from the first
`'\x7b'` to the last `'\x7d'` inclusive, attempted only when both
`find` and `rfind` succeed (`start_index != -1 and end_index != -1`). -/
def candidate (raw_content : String) : Option String :=
  match pyFind raw_content '{', pyRfind raw_content '}' with
  | some start_index, some end_index =>
    some (String.mk (pySlice raw_content.toList start_index (end_index + 1)))
  | _, _ => none

/-- The decoded object of a raw reply, when the candidate payload decodes. -/
def decoded (raw_content : String) : Option (List (String × String)) :=
  (candidate raw_content).bind jsonLoads

/-- The whole try/except of `_update_and_parse_node`: merge the decoded
object into the prior requirements, or leave them unchanged on any failure. -/
def parseMerge (prior : List (String × String)) (raw_content : String) :
    List (String × String) :=
  match decoded raw_content with
  | some obj => dictUpdate prior obj
  | none => prior

/-! ## Prompts (f-strings of the source) -/

/-- The checklist-generation prompt of `_generate_checklist_node`. -/
def checklist_prompt (initial_query : String) : String :=
  "The user wants to buy an item. Here is their request: '" ++ initial_query ++ "'. "
    ++ "What is the category of this item? What is the checklist of absolutely essential requirements I must ask for? "
    ++ "And what is a checklist of optional, nice-to-have requirements?"

/-- `state['messages'][-1]`; the `[]` case would raise in Python and is
unreachable in every turn run (the turn entry points append a message). -/
def lastMsg : List Message → Message
  | [] => ⟨Role.system, ""⟩
  | [m] => m
  | _ :: m :: ms => lastMsg (m :: ms)

/-- `latest_user_message = state['messages'][-1].content`. -/
def latest_user_message (s : AgentState) : String := (lastMsg s.messages).content

/-- The extraction prompt of `_update_and_parse_node`. -/
def parse_prompt (category : String) (essential opt : List String)
    (latest : String) : String :=
  "You are a data extraction assistant. Your sole job is to extract information from the user's message and return it as a JSON object.\n"
    ++ "        The user wants to buy a: " ++ category ++ ".\n"
    ++ "        The fields you must look for are: " ++ String.intercalate ", " (essential ++ opt) ++ ".\n"
    ++ "        --- EXAMPLES ---\n"
    ++ "        User Message: \"I need a family-friendly SUV, maybe for around 30 lakhs\"\n"
    ++ "        Your JSON Output: \x7b\"car_type\": \"SUV\", \"price_range\": \"around 30 lakhs\"\x7d\n"
    ++ "        User Message: \"I want a gaming laptop under $1500. Not sure about the brand, any is fine.\"\n"
    ++ "        Your JSON Output: \x7b\"primary_use\": \"gaming\", \"budget\": \"under $1500\", \"brand\": \"Any\"\x7d\n"
    ++ "        --- END OF EXAMPLES ---\n"
    ++ "        Now, perform the same task. The user's latest message is: \"" ++ latest ++ "\"\n"
    ++ "        Return ONLY the JSON object. Do not wrap it in markdown.\n        "

/-- The extraction prompt as built from the state at the parse node. -/
def update_prompt (s : AgentState) : String :=
  parse_prompt s.category s.essential_checklist s.optional_checklist
    (latest_user_message s)

/-- The question-formulation prompt of `_ask_question_node`. -/
def ask_prompt (category : String) (extracted : List (String × String))
    (missing : List String) : String :=
  "Based on the conversation history and the user's goal to buy a " ++ category
    ++ ", formulate the next question to ask.\n"
    ++ "        The user has already provided this information: " ++ pyReprDict extracted ++ ".\n"
    ++ "        You still need to find out about the following: " ++ pyReprList missing ++ ".\n"
    ++ "        Focus on the most important missing items first. Ask for one or two pieces of information at a time. Make your question friendly and conversational."

/-! ## Graph nodes -/

/-- The partial state a node returns (the keys of the returned dict). -/
structure NodeDelta where
  category : Option String := none
  essential_checklist : Option (List String) := none
  optional_checklist : Option (List String) := none
  extracted_requirements : Option (List (String × String)) := none
  messages : Option (List Message) := none
  next : Option String := none
deriving DecidableEq, Repr

/-- LangGraph channel application inside one run: `messages` is an
`operator.add` channel (the delta is appended), every other returned key
overwrites its channel. -/
def applyChannel (s : AgentState) (d : NodeDelta) : AgentState :=
  { initial_query := s.initial_query
    category := d.category.getD s.category
    essential_checklist := d.essential_checklist.getD s.essential_checklist
    optional_checklist := d.optional_checklist.getD s.optional_checklist
    extracted_requirements := d.extracted_requirements.getD s.extracted_requirements
    messages := s.messages ++ d.messages.getD []
    next := match d.next with | some v => some v | none => s.next }

/-- `final_state.update(node_output)` in the public turn methods: every key
the node returned overwrites the accumulator, `messages` included. -/
def applyUpdate (s : AgentState) (d : NodeDelta) : AgentState :=
  { initial_query := s.initial_query
    category := d.category.getD s.category
    essential_checklist := d.essential_checklist.getD s.essential_checklist
    optional_checklist := d.optional_checklist.getD s.optional_checklist
    extracted_requirements := d.extracted_requirements.getD s.extracted_requirements
    messages := d.messages.getD s.messages
    next := match d.next with | some v => some v | none => s.next }

/-- `_conditional_start_node`: generate the checklist when
`"essential_checklist" not in state or not state["essential_checklist"]`
(absence and the empty list coincide in the model). -/
def conditional_start_node (s : AgentState) : String :=
  if s.essential_checklist.isEmpty then "generate_checklist" else "update_and_parse"

/-- `_generate_checklist_node`. -/
def generate_checklist_node (llm : LLMClient) (s : AgentState) : NodeDelta :=
  let response := llm.completeChecklist (checklist_prompt s.initial_query)
  { category := some response.category
    essential_checklist := some response.essential_checklist
    optional_checklist := some response.optional_checklist
    messages := some [⟨Role.system,
      "Generated checklist for " ++ response.category ++ ". Essentials: "
        ++ pyReprList response.essential_checklist ++ "."⟩] }

/-- `_update_and_parse_node`. -/
def update_and_parse_node (llm : LLMClient) (s : AgentState) : NodeDelta :=
  { extracted_requirements :=
      some (parseMerge s.extracted_requirements (llm.complete (update_prompt s))) }

/-- `_ask_question_node`. -/
def ask_question_node (llm : LLMClient) (s : AgentState) : NodeDelta :=
  let extracted_keys := dictKeys s.extracted_requirements
  let missing_reqs := (s.essential_checklist ++ s.optional_checklist).filter
    (fun r => !(extracted_keys.contains r))
  { messages := some [⟨Role.system,
      llm.complete (ask_prompt s.category s.extracted_requirements missing_reqs)⟩]
    next := some "wait_for_user_input" }

/-- `_router_node`: `final_summary` exactly when no essential requirement is
missing from the extracted keys. -/
def router_node (s : AgentState) : String :=
  let extracted_keys := dictKeys s.extracted_requirements
  let missing_essential_reqs := s.essential_checklist.filter
    (fun r => !(extracted_keys.contains r))
  if missing_essential_reqs.isEmpty then "final_summary" else "ask_question"

/-- `_final_summary_node`: deterministic summary, no LLM call. -/
def final_summary_node (s : AgentState) : NodeDelta :=
  let final_reqs := s.extracted_requirements
  let summary_message := (s.essential_checklist ++ s.optional_checklist).foldl
    (fun acc key =>
      if dictMem final_reqs key then
        acc ++ "- " ++ pyTitle (key.replace "_" " ") ++ ": "
          ++ dictGet final_reqs key "N/A" ++ "\n"
      else acc)
    ("Great! Your requirement for a '" ++ s.category
      ++ "' is ready to be sent for processing. Here is the summary:\n")
  { messages := some [⟨Role.system, summary_message⟩]
    next := some "end_conversation" }

/-! ## One turn of the compiled graph -/

/-- The graph state handed to `update_and_parse`: the input state itself, or
the input with the checklist generator's output folded into the channels when
the conditional entry point chose `generate_checklist`. -/
def stateAtParse (llm : LLMClient) (s0 : AgentState) : AgentState :=
  if conditional_start_node s0 = "generate_checklist" then
    applyChannel s0 (generate_checklist_node llm s0)
  else s0

/-- The graph state after the parse step (its channels). -/
def afterParse (llm : LLMClient) (s0 : AgentState) : AgentState :=
  let sP := stateAtParse llm s0
  applyChannel sP (update_and_parse_node llm sP)

/-- One `astream` run as the public turn methods consume it: the event stream
is `[generate_checklist?], update_and_parse, (ask_question | final_summary)`,
and `final_state` starts from the input state and is `update`d with every
event's output, `messages` overwritten like any other key. -/
def runTurn (llm : LLMClient) (s0 : AgentState) : AgentState :=
  let sP := stateAtParse llm s0
  let d2 := update_and_parse_node llm sP
  let s2 := applyChannel sP d2
  let d3 := if router_node s2 = "final_summary" then final_summary_node s2
            else ask_question_node llm s2
  let base := if conditional_start_node s0 = "generate_checklist" then
      applyUpdate s0 (generate_checklist_node llm s0)
    else s0
  applyUpdate (applyUpdate base d2) d3

/-- The fresh state of `run_first_turn`: the initial query and its message. -/
def initialState (initial_query : String) : AgentState :=
  ⟨initial_query, "", [], [], [], [⟨Role.human, initial_query⟩], none⟩

/-- `run_first_turn`. -/
def run_first_turn (llm : LLMClient) (initial_query : String) : AgentState :=
  runTurn llm (initialState initial_query)

/-- `current_state["messages"].append(HumanMessage(content=user_input))`. -/
def appendUser (s : AgentState) (user_input : String) : AgentState :=
  { s with messages := s.messages ++ [⟨Role.human, user_input⟩] }

/-- `run_next_turn`. -/
def run_next_turn (llm : LLMClient) (current_state : AgentState)
    (user_input : String) : AgentState :=
  runTurn llm (appendUser current_state user_input)

/-- `get_agent_response`. -/
def get_agent_response (s : AgentState) : String := (lastMsg s.messages).content

/-- `is_conversation_complete`: `state.get("next") == "end_conversation"`. -/
def is_conversation_complete (s : AgentState) : Bool :=
  s.next == some "end_conversation"

/-! ## Concrete collaborators and states used by witnesses and counterexamples -/

/-- A mocked LLM whose extraction replies are never JSON. -/
def llmSaysIDontKnow : LLMClient :=
  ⟨fun _ => "I don't know", fun _ => ⟨"Laptop", ["budget"], ["brand"]⟩⟩

/-- A mocked LLM that extracts a key outside every checklist. -/
def llmSaysColor : LLMClient :=
  ⟨fun _ => "\x7b\"color\": \"red\"\x7d", fun _ => ⟨"Car", ["budget"], []⟩⟩

/-- A mocked LLM that generates the checklist `Laptop / [budget] / [brand]`. -/
def llmGenLaptop : LLMClient :=
  ⟨fun _ => "", fun _ => ⟨"Laptop", ["budget"], ["brand"]⟩⟩

/-- A mocked LLM for the first-turn scenario: category `Car`, one essential. -/
def llmGenCar : LLMClient :=
  ⟨fun _ => "", fun _ => ⟨"Car", ["car_type"], []⟩⟩

/-- A mid-conversation state: checklist generated, one question pending. -/
def sMidConversation : AgentState :=
  ⟨"I need a laptop", "Laptop", ["budget"], ["brand"], [],
    [⟨Role.system, "What is your budget?"⟩], some "wait_for_user_input"⟩

/-- A state whose generated `essential_checklist` is empty (its category was
set to `Car` by a previous generation) and whose turn already finalized. -/
def sEmptyEssentials : AgentState :=
  ⟨"something trivial", "Car", [], [], [],
    [⟨Role.system, "summary"⟩], some "end_conversation"⟩

/-- A state whose `extracted_requirements` holds a key outside both
checklists next to a recognized one. -/
def sWithRogueKey : AgentState :=
  ⟨"I need a laptop", "Laptop", ["budget"], [], [("rogue", "1"), ("budget", "$900")],
    [⟨Role.system, "What is your budget?"⟩], some "wait_for_user_input"⟩

/-- `extracted_requirements` with one key deleted: a specification-side
device (no source operation deletes keys) used to state that the summary
ignores a key. -/
def dictRemove (d : List (String × String)) (k : String) : List (String × String) :=
  d.filter (fun p => !(p.1 == k))

/-- The structured checklist reply an oracle gives for a query. -/
def generatedChecklist (llm : LLMClient) (q : String) : RequirementChecklist :=
  llm.completeChecklist (checklist_prompt q)

/-- The keys the parse step decodes out of a raw reply (empty on failure). -/
def decodedKeys (raw : String) : List String :=
  match decoded raw with
  | some obj => dictKeys obj
  | none => []

/-- One summary line as the spec words it: label (underscores to spaces,
title-cased), a colon, the stored value. -/
def summaryLine (key value : String) : String :=
  "- " ++ pyTitle (key.replace "_" " ") ++ ": " ++ value ++ "\n"

/-- Concatenation of a list of strings. -/
def joinStrings : List String → String
  | [] => ""
  | s :: rest => s ++ joinStrings rest

/-- The Finalizer's summary as §4.5 of the spec words it: a fixed header
naming the category, then, for each key of the essential checklist followed
by the optional checklist that is present in the extracted requirements (in
checklist order), one formatted line; absent keys produce no line. -/
def summarySpec (s : AgentState) : String :=
  "Great! Your requirement for a '" ++ s.category
    ++ "' is ready to be sent for processing. Here is the summary:\n"
    ++ joinStrings ((s.essential_checklist ++ s.optional_checklist).filterMap
        (fun key => (dictFind s.extracted_requirements key).map (summaryLine key)))

/-! ## Association-list (Python dict) lemmas -/

theorem dictKeys_nil : dictKeys [] = [] := rfl

theorem dictKeys_cons (p : String × String) (rest : List (String × String)) :
    dictKeys (p :: rest) = p.1 :: dictKeys rest := rfl

theorem dictMem_iff_mem_keys (d : List (String × String)) (k : String) :
    dictMem d k = true ↔ k ∈ dictKeys d := by
  induction d with
  | nil => simp [dictMem, dictKeys_nil]
  | cons p rest ih =>
    rw [dictKeys_cons]
    simp only [dictMem, List.any_cons, Bool.or_eq_true, beq_iff_eq, List.mem_cons]
    rw [show (rest.any fun q => q.1 == k) = dictMem rest k from rfl, ih]
    constructor
    · rintro (h | h)
      · exact Or.inl h.symm
      · exact Or.inr h
    · rintro (h | h)
      · exact Or.inl h.symm
      · exact Or.inr h

theorem dictFind_dictSet_self (d : List (String × String)) (k v : String) :
    dictFind (dictSet d k v) k = some v := by
  induction d with
  | nil => simp [dictSet, dictFind]
  | cons p rest ih =>
    by_cases h : p.1 = k
    · simp [dictSet, dictFind, h]
    · simp only [dictSet, dictFind, h, if_neg, beq_iff_eq, if_false]
      exact ih

theorem dictFind_dictSet_ne (d : List (String × String)) (k v a : String)
    (h : a ≠ k) : dictFind (dictSet d k v) a = dictFind d a := by
  induction d with
  | nil => simp [dictSet, dictFind, Ne.symm h]
  | cons p rest ih =>
    by_cases hp : p.1 = k
    · simp only [dictSet, beq_iff_eq, hp, if_true, dictFind]
      rw [if_neg (by simpa using Ne.symm h), if_neg (by simpa [hp] using Ne.symm h)]
    · simp only [dictSet, beq_iff_eq, hp, if_false, dictFind]
      by_cases hpa : p.1 = a
      · rw [if_pos (by simpa using hpa), if_pos (by simpa using hpa)]
      · rw [if_neg (by simpa using hpa), if_neg (by simpa using hpa)]
        exact ih

theorem mem_keys_dictSet (d : List (String × String)) (k v a : String) :
    a ∈ dictKeys (dictSet d k v) ↔ a ∈ dictKeys d ∨ a = k := by
  induction d with
  | nil => simp [dictSet, dictKeys]
  | cons p rest ih =>
    by_cases hp : p.1 = k
    · simp only [dictSet, beq_iff_eq, hp, if_true, dictKeys_cons, List.mem_cons]
      constructor
      · rintro (h | h)
        · exact Or.inr h
        · exact Or.inl (Or.inr h)
      · rintro ((h | h) | h)
        · exact Or.inl (hp ▸ h)
        · exact Or.inr h
        · exact Or.inl h
    · simp only [dictSet, beq_iff_eq, hp, if_false, dictKeys_cons, List.mem_cons, ih]
      tauto

theorem nodup_keys_dictSet (d : List (String × String)) (k v : String)
    (h : (dictKeys d).Nodup) : (dictKeys (dictSet d k v)).Nodup := by
  induction d with
  | nil => simp [dictSet, dictKeys]
  | cons p rest ih =>
    rw [dictKeys_cons, List.nodup_cons] at h
    by_cases hp : p.1 = k
    · simp only [dictSet, beq_iff_eq, hp, if_true, dictKeys_cons, List.nodup_cons]
      exact ⟨hp ▸ h.1, h.2⟩
    · simp only [dictSet, beq_iff_eq, hp, if_false, dictKeys_cons, List.nodup_cons]
      refine ⟨fun hmem => ?_, ih h.2⟩
      rcases (mem_keys_dictSet rest k v p.1).mp hmem with hmem | hmem
      · exact h.1 hmem
      · exact hp hmem

theorem dictUpdate_nil (d : List (String × String)) : dictUpdate d [] = d := rfl

theorem dictUpdate_cons (d : List (String × String)) (p : String × String)
    (rest : List (String × String)) :
    dictUpdate d (p :: rest) = dictUpdate (dictSet d p.1 p.2) rest := rfl

theorem mem_keys_dictUpdate (d new : List (String × String)) (a : String) :
    a ∈ dictKeys (dictUpdate d new) ↔ a ∈ dictKeys d ∨ a ∈ dictKeys new := by
  induction new generalizing d with
  | nil => simp [dictUpdate, dictKeys]
  | cons p rest ih =>
    rw [dictUpdate_cons, ih, mem_keys_dictSet, dictKeys_cons, List.mem_cons]
    tauto

theorem nodup_keys_dictUpdate (d new : List (String × String))
    (h : (dictKeys d).Nodup) : (dictKeys (dictUpdate d new)).Nodup := by
  induction new generalizing d with
  | nil => exact h
  | cons p rest ih => exact ih _ (nodup_keys_dictSet _ _ _ h)

theorem dictFind_dictUpdate (d new : List (String × String)) (a : String)
    (h : (dictKeys new).Nodup) :
    dictFind (dictUpdate d new) a =
      if a ∈ dictKeys new then dictFind new a else dictFind d a := by
  induction new generalizing d with
  | nil => simp [dictUpdate, dictKeys]
  | cons p rest ih =>
    rw [dictKeys_cons, List.nodup_cons] at h
    rw [dictUpdate_cons, ih _ h.2, dictKeys_cons]
    by_cases ha : a = p.1
    · subst ha
      rw [if_neg h.1, if_pos (List.mem_cons_self _ _), dictFind_dictSet_self]
      simp [dictFind]
    · by_cases hr : a ∈ dictKeys rest
      · rw [if_pos hr, if_pos (List.mem_cons_of_mem _ hr)]
        simp [dictFind, beq_iff_eq, Ne.symm ha]
      · rw [if_neg hr, if_neg (by simp [List.mem_cons, ha, hr]),
          dictFind_dictSet_ne _ _ _ _ ha]

theorem contains_iff (l : List String) (a : String) :
    l.contains a = true ↔ a ∈ l := List.elem_iff

/-! ## The decoded object of a reply has no duplicate keys -/

theorem jsonLoads_nodup (s : String) (obj : List (String × String))
    (h : jsonLoads s = some obj) : (dictKeys obj).Nodup := by
  unfold jsonLoads at h
  rcases Option.map_eq_some'.mp h with ⟨pairs, _, rfl⟩
  exact nodup_keys_dictUpdate [] pairs List.nodup_nil

theorem decoded_nodup (raw : String) (obj : List (String × String))
    (h : decoded raw = some obj) : (dictKeys obj).Nodup := by
  unfold decoded at h
  rcases Option.bind_eq_some.mp h with ⟨c, _, hc⟩
  exact jsonLoads_nodup c obj hc

/-! ## `find` / `rfind` return the first and the last occurrence -/

theorem findIdx_eq_none (c : Char) (l : List Char) :
    findIdx c l = none ↔ c ∉ l := by
  induction l with
  | nil => simp [findIdx]
  | cons x xs ih =>
    rw [findIdx]
    by_cases hx : x = c
    · simp [hx]
    · rw [if_neg hx, Option.map_eq_none', ih, List.mem_cons]
      constructor
      · rintro hn (h2 | h2)
        · exact hx h2.symm
        · exact hn h2
      · intro hn h2
        exact hn (Or.inr h2)

theorem findIdx_spec (c : Char) (l : List Char) (i : Nat)
    (h : findIdx c l = some i) :
    l.get? i = some c ∧ ∀ m, m < i → l.get? m ≠ some c := by
  induction l generalizing i with
  | nil => simp [findIdx] at h
  | cons x xs ih =>
    by_cases hx : x = c
    · rw [findIdx, if_pos hx] at h
      cases h
      exact ⟨by simp [hx], fun m hm => absurd hm (Nat.not_lt_zero m)⟩
    · rw [findIdx, if_neg hx] at h
      rcases Option.map_eq_some'.mp h with ⟨j, hj, rfl⟩
      obtain ⟨h1, h2⟩ := ih j hj
      refine ⟨h1, fun m hm => ?_⟩
      cases m with
      | zero => simpa using fun hh => hx hh
      | succ m => exact h2 m (by omega)

theorem rfindIdx_eq_none (c : Char) (l : List Char) :
    rfindIdx c l = none ↔ c ∉ l := by
  induction l with
  | nil => simp [rfindIdx]
  | cons x xs ih =>
    rw [rfindIdx]
    cases hr : rfindIdx c xs with
    | some i =>
      have hmem : c ∈ xs := by
        by_contra hn
        rw [ih.mpr hn] at hr
        simp at hr
      simp [List.mem_cons, hmem]
    | none =>
      have hnot : c ∉ xs := ih.mp hr
      by_cases hx : x = c
      · simp [hx]
      · rw [if_neg hx]
        simp only [List.mem_cons]
        constructor
        · rintro _ (h2 | h2)
          · exact hx h2.symm
          · exact hnot h2
        · intro _
          trivial

theorem rfindIdx_spec (c : Char) (l : List Char) (j : Nat)
    (h : rfindIdx c l = some j) :
    l.get? j = some c ∧ ∀ m, j < m → l.get? m ≠ some c := by
  induction l generalizing j with
  | nil => simp [rfindIdx] at h
  | cons x xs ih =>
    rw [rfindIdx] at h
    cases hr : rfindIdx c xs with
    | some i =>
      rw [hr] at h
      cases h
      obtain ⟨h1, h2⟩ := ih i hr
      refine ⟨h1, fun m hm => ?_⟩
      cases m with
      | zero => omega
      | succ m => exact h2 m (by omega)
    | none =>
      rw [hr] at h
      have hnot : c ∉ xs := (rfindIdx_eq_none c xs).mp hr
      by_cases hx : x = c
      · rw [if_pos hx] at h
        cases h
        refine ⟨by simp [hx], fun m hm => ?_⟩
        cases m with
        | zero => omega
        | succ m =>
          intro hget
          exact hnot (List.get?_mem hget)
      · rw [if_neg hx] at h
        cases h

/-! ## The last message of an appended log -/

theorem lastMsg_append (l : List Message) (m : Message) :
    lastMsg (l ++ [m]) = m := by
  induction l with
  | nil => rfl
  | cons a t ih =>
    cases t with
    | nil => rfl
    | cons b t2 =>
      simp only [List.cons_append, lastMsg] at *
      exact ih

/-! ## The completion router -/

theorem router_node_final_iff (s : AgentState) :
    router_node s = "final_summary" ↔
      ∀ k ∈ s.essential_checklist, k ∈ dictKeys s.extracted_requirements := by
  simp only [router_node]
  by_cases h : (s.essential_checklist.filter
      (fun r => !((dictKeys s.extracted_requirements).contains r))).isEmpty
  · rw [if_pos h]
    rw [List.isEmpty_iff, List.filter_eq_nil_iff] at h
    simp only [true_iff, eq_self_iff_true]
    intro k hk
    have := h k hk
    simpa [contains_iff] using this
  · rw [if_neg h]
    rw [List.isEmpty_iff] at h
    constructor
    · intro hcontra
      exact absurd hcontra (by decide)
    · intro hall
      exact absurd (List.filter_eq_nil_iff.mpr (fun a ha => by
        simpa [contains_iff] using hall a ha)) h

/-! ## Turn-level lemmas -/

theorem conditional_start_of_nonempty (s0 : AgentState)
    (h : s0.essential_checklist ≠ []) :
    conditional_start_node s0 ≠ "generate_checklist" := by
  unfold conditional_start_node
  rw [if_neg (by simp [List.isEmpty_iff, h])]
  decide

theorem stateAtParse_of_nonempty (llm : LLMClient) (s0 : AgentState)
    (h : s0.essential_checklist ≠ []) : stateAtParse llm s0 = s0 := by
  unfold stateAtParse
  rw [if_neg (conditional_start_of_nonempty s0 h)]

theorem runTurn_next (llm : LLMClient) (s0 : AgentState) :
    (runTurn llm s0).next =
      some (if router_node (afterParse llm s0) = "final_summary" then
        "end_conversation" else "wait_for_user_input") := by
  simp only [runTurn, afterParse]
  by_cases hr : router_node (applyChannel (stateAtParse llm s0)
      (update_and_parse_node llm (stateAtParse llm s0))) = "final_summary"
  · rw [if_pos hr, if_pos hr]
    simp [applyUpdate, final_summary_node]
  · rw [if_neg hr, if_neg hr]
    simp [applyUpdate, ask_question_node]

theorem complete_iff_router (llm : LLMClient) (s0 : AgentState) :
    is_conversation_complete (runTurn llm s0) = true ↔
      router_node (afterParse llm s0) = "final_summary" := by
  rw [is_conversation_complete, runTurn_next]
  by_cases hr : router_node (afterParse llm s0) = "final_summary"
  · simp [hr]
  · simp [hr]

theorem afterParse_essential (llm : LLMClient) (s0 : AgentState) :
    (afterParse llm s0).essential_checklist =
      (stateAtParse llm s0).essential_checklist := by
  simp [afterParse, applyChannel, update_and_parse_node]

theorem afterParse_optional (llm : LLMClient) (s0 : AgentState) :
    (afterParse llm s0).optional_checklist =
      (stateAtParse llm s0).optional_checklist := by
  simp [afterParse, applyChannel, update_and_parse_node]

theorem afterParse_category (llm : LLMClient) (s0 : AgentState) :
    (afterParse llm s0).category = (stateAtParse llm s0).category := by
  simp [afterParse, applyChannel, update_and_parse_node]

theorem afterParse_extracted (llm : LLMClient) (s0 : AgentState) :
    (afterParse llm s0).extracted_requirements =
      parseMerge (stateAtParse llm s0).extracted_requirements
        (llm.complete (update_prompt (stateAtParse llm s0))) := by
  simp [afterParse, applyChannel, update_and_parse_node]

theorem runTurn_extracted (llm : LLMClient) (s0 : AgentState) :
    (runTurn llm s0).extracted_requirements =
      (afterParse llm s0).extracted_requirements := by
  simp only [runTurn, afterParse]
  by_cases hr : router_node (applyChannel (stateAtParse llm s0)
      (update_and_parse_node llm (stateAtParse llm s0))) = "final_summary"
  · rw [if_pos hr]
    simp [applyUpdate, applyChannel, final_summary_node, update_and_parse_node]
  · rw [if_neg hr]
    simp [applyUpdate, applyChannel, ask_question_node, update_and_parse_node]

theorem stateAtParse_extracted (llm : LLMClient) (s0 : AgentState) :
    (stateAtParse llm s0).extracted_requirements = s0.extracted_requirements := by
  unfold stateAtParse
  by_cases hc : conditional_start_node s0 = "generate_checklist"
  · rw [if_pos hc]
    simp [applyChannel, generate_checklist_node]
  · rw [if_neg hc]

theorem dictFind_eq_none_iff (d : List (String × String)) (k : String) :
    dictFind d k = none ↔ k ∉ dictKeys d := by
  induction d with
  | nil => simp [dictFind, dictKeys]
  | cons p rest ih =>
    rw [dictKeys_cons, List.mem_cons]
    by_cases hp : p.1 = k
    · simp [dictFind, hp]
    · simp only [dictFind, beq_iff_eq, hp, if_false, ih]
      constructor
      · rintro hn (h2 | h2)
        · exact hp h2.symm
        · exact hn h2
      · intro hn h2
        exact hn (Or.inr h2)

theorem dictFind_some_of_mem (d : List (String × String)) (k : String)
    (h : k ∈ dictKeys d) : ∃ v, dictFind d k = some v := by
  cases hf : dictFind d k with
  | none => exact absurd h ((dictFind_eq_none_iff d k).mp hf)
  | some v => exact ⟨v, rfl⟩

/-! ## Congruence of the nodes in the fields they read -/

theorem update_and_parse_congr (llm : LLMClient) (x y : AgentState)
    (hcat : x.category = y.category)
    (hess : x.essential_checklist = y.essential_checklist)
    (hopt : x.optional_checklist = y.optional_checklist)
    (hext : x.extracted_requirements = y.extracted_requirements)
    (hlast : lastMsg x.messages = lastMsg y.messages) :
    update_and_parse_node llm x = update_and_parse_node llm y := by
  unfold update_and_parse_node update_prompt latest_user_message
  rw [hcat, hess, hopt, hext, hlast]

theorem ask_question_congr (llm : LLMClient) (x y : AgentState)
    (hcat : x.category = y.category)
    (hess : x.essential_checklist = y.essential_checklist)
    (hopt : x.optional_checklist = y.optional_checklist)
    (hext : x.extracted_requirements = y.extracted_requirements) :
    ask_question_node llm x = ask_question_node llm y := by
  unfold ask_question_node
  rw [hcat, hess, hopt, hext]

theorem final_summary_congr (x y : AgentState)
    (hcat : x.category = y.category)
    (hess : x.essential_checklist = y.essential_checklist)
    (hopt : x.optional_checklist = y.optional_checklist)
    (hext : x.extracted_requirements = y.extracted_requirements) :
    final_summary_node x = final_summary_node y := by
  unfold final_summary_node
  rw [hcat, hess, hopt, hext]

theorem router_congr (x y : AgentState)
    (hess : x.essential_checklist = y.essential_checklist)
    (hext : x.extracted_requirements = y.extracted_requirements) :
    router_node x = router_node y := by
  unfold router_node
  rw [hess, hext]

theorem applyUpdate_initial_query (s : AgentState) (d : NodeDelta) :
    (applyUpdate s d).initial_query = s.initial_query := rfl

theorem applyUpdate_category (s : AgentState) (d : NodeDelta) :
    (applyUpdate s d).category = d.category.getD s.category := rfl

theorem applyUpdate_essential (s : AgentState) (d : NodeDelta) :
    (applyUpdate s d).essential_checklist = d.essential_checklist.getD s.essential_checklist := rfl

theorem applyUpdate_optional (s : AgentState) (d : NodeDelta) :
    (applyUpdate s d).optional_checklist = d.optional_checklist.getD s.optional_checklist := rfl

theorem applyUpdate_extracted (s : AgentState) (d : NodeDelta) :
    (applyUpdate s d).extracted_requirements = d.extracted_requirements.getD s.extracted_requirements := rfl

theorem applyUpdate_next (s : AgentState) (d : NodeDelta) :
    (applyUpdate s d).next = match d.next with | some v => some v | none => s.next := rfl

/-- The final `update` of a turn erases the accumulator's `messages` (the
chosen node always returns one), so two accumulators agreeing on every other
field produce the same final state. -/
theorem applyUpdate_congr_of_msg (x y : AgentState) (d : NodeDelta)
    (hq : x.initial_query = y.initial_query)
    (hcat : x.category = y.category)
    (hess : x.essential_checklist = y.essential_checklist)
    (hopt : x.optional_checklist = y.optional_checklist)
    (hext : x.extracted_requirements = y.extracted_requirements)
    (hnext : x.next = y.next)
    (hmsg : ∃ m, d.messages = some m) :
    applyUpdate x d = applyUpdate y d := by
  obtain ⟨m, hm⟩ := hmsg
  unfold applyUpdate
  rw [hq, hcat, hess, hopt, hext, hnext, hm]
  simp only [Option.getD_some]

/-- A turn's outcome does not depend on the message log beyond its last
entry: duplicate submission of the same state object (whose list the first
call already mutated) reproduces the same result. -/
theorem runTurn_messages_frame (llm : LLMClient) (a : AgentState)
    (M : List Message) (hlast : lastMsg M = lastMsg a.messages) :
    runTurn llm { a with messages := M } = runTurn llm a := by
  have hd1 : generate_checklist_node llm { a with messages := M }
      = generate_checklist_node llm a := rfl
  have hsp :
      (stateAtParse llm { a with messages := M }).category
          = (stateAtParse llm a).category
      ∧ (stateAtParse llm { a with messages := M }).essential_checklist
          = (stateAtParse llm a).essential_checklist
      ∧ (stateAtParse llm { a with messages := M }).optional_checklist
          = (stateAtParse llm a).optional_checklist
      ∧ (stateAtParse llm { a with messages := M }).extracted_requirements
          = (stateAtParse llm a).extracted_requirements
      ∧ lastMsg (stateAtParse llm { a with messages := M }).messages
          = lastMsg (stateAtParse llm a).messages := by
    unfold stateAtParse
    by_cases hc : conditional_start_node a = "generate_checklist"
    · rw [if_pos hc,
        if_pos (show conditional_start_node { a with messages := M }
          = "generate_checklist" from hc)]
      refine ⟨rfl, rfl, rfl, rfl, ?_⟩
      simp only [applyChannel, generate_checklist_node, Option.getD_some]
      rw [lastMsg_append, lastMsg_append]
    · rw [if_neg hc,
        if_neg (show ¬ conditional_start_node { a with messages := M }
          = "generate_checklist" from hc)]
      exact ⟨rfl, rfl, rfl, rfl, hlast⟩
  obtain ⟨hscat, hsess, hsopt, hsext, hslast⟩ := hsp
  have hd2 : update_and_parse_node llm (stateAtParse llm { a with messages := M })
      = update_and_parse_node llm (stateAtParse llm a) :=
    update_and_parse_congr llm _ _ hscat hsess hsopt hsext hslast
  have hs2cat : (applyChannel (stateAtParse llm { a with messages := M })
        (update_and_parse_node llm (stateAtParse llm { a with messages := M }))).category
      = (applyChannel (stateAtParse llm a)
        (update_and_parse_node llm (stateAtParse llm a))).category := by
    simp only [applyChannel]
    rw [hd2, hscat]
  have hs2ess : (applyChannel (stateAtParse llm { a with messages := M })
        (update_and_parse_node llm (stateAtParse llm { a with messages := M }))).essential_checklist
      = (applyChannel (stateAtParse llm a)
        (update_and_parse_node llm (stateAtParse llm a))).essential_checklist := by
    simp only [applyChannel]
    rw [hd2, hsess]
  have hs2opt : (applyChannel (stateAtParse llm { a with messages := M })
        (update_and_parse_node llm (stateAtParse llm { a with messages := M }))).optional_checklist
      = (applyChannel (stateAtParse llm a)
        (update_and_parse_node llm (stateAtParse llm a))).optional_checklist := by
    simp only [applyChannel]
    rw [hd2, hsopt]
  have hs2ext : (applyChannel (stateAtParse llm { a with messages := M })
        (update_and_parse_node llm (stateAtParse llm { a with messages := M }))).extracted_requirements
      = (applyChannel (stateAtParse llm a)
        (update_and_parse_node llm (stateAtParse llm a))).extracted_requirements := by
    simp only [applyChannel]
    rw [hd2, hsext]
  have hrouter : router_node (applyChannel (stateAtParse llm { a with messages := M })
        (update_and_parse_node llm (stateAtParse llm { a with messages := M })))
      = router_node (applyChannel (stateAtParse llm a)
        (update_and_parse_node llm (stateAtParse llm a))) :=
    router_congr _ _ hs2ess hs2ext
  simp only [runTurn]
  rw [hrouter]
  have hbase :
      (if conditional_start_node { a with messages := M } = "generate_checklist" then
        applyUpdate { a with messages := M } (generate_checklist_node llm { a with messages := M })
      else { a with messages := M }).initial_query
        = (if conditional_start_node a = "generate_checklist" then
        applyUpdate a (generate_checklist_node llm a) else a).initial_query
      ∧ (if conditional_start_node { a with messages := M } = "generate_checklist" then
        applyUpdate { a with messages := M } (generate_checklist_node llm { a with messages := M })
      else { a with messages := M }).category
        = (if conditional_start_node a = "generate_checklist" then
        applyUpdate a (generate_checklist_node llm a) else a).category
      ∧ (if conditional_start_node { a with messages := M } = "generate_checklist" then
        applyUpdate { a with messages := M } (generate_checklist_node llm { a with messages := M })
      else { a with messages := M }).essential_checklist
        = (if conditional_start_node a = "generate_checklist" then
        applyUpdate a (generate_checklist_node llm a) else a).essential_checklist
      ∧ (if conditional_start_node { a with messages := M } = "generate_checklist" then
        applyUpdate { a with messages := M } (generate_checklist_node llm { a with messages := M })
      else { a with messages := M }).optional_checklist
        = (if conditional_start_node a = "generate_checklist" then
        applyUpdate a (generate_checklist_node llm a) else a).optional_checklist
      ∧ (if conditional_start_node { a with messages := M } = "generate_checklist" then
        applyUpdate { a with messages := M } (generate_checklist_node llm { a with messages := M })
      else { a with messages := M }).extracted_requirements
        = (if conditional_start_node a = "generate_checklist" then
        applyUpdate a (generate_checklist_node llm a) else a).extracted_requirements
      ∧ (if conditional_start_node { a with messages := M } = "generate_checklist" then
        applyUpdate { a with messages := M } (generate_checklist_node llm { a with messages := M })
      else { a with messages := M }).next
        = (if conditional_start_node a = "generate_checklist" then
        applyUpdate a (generate_checklist_node llm a) else a).next := by
    by_cases hc : conditional_start_node a = "generate_checklist"
    · rw [if_pos hc,
        if_pos (show conditional_start_node { a with messages := M }
          = "generate_checklist" from hc)]
      exact ⟨rfl, rfl, rfl, rfl, rfl, rfl⟩
    · rw [if_neg hc,
        if_neg (show ¬ conditional_start_node { a with messages := M }
          = "generate_checklist" from hc)]
      exact ⟨rfl, rfl, rfl, rfl, rfl, rfl⟩
  obtain ⟨hbq, hbcat, hbess, hbopt, hbext, hbnext⟩ := hbase
  by_cases hr : router_node (applyChannel (stateAtParse llm a)
      (update_and_parse_node llm (stateAtParse llm a))) = "final_summary"
  · rw [if_pos hr, if_pos hr]
    rw [final_summary_congr _ _ hs2cat hs2ess hs2opt hs2ext]
    refine applyUpdate_congr_of_msg _ _ _ ?_ ?_ ?_ ?_ ?_ ?_ ?_
    · rw [applyUpdate_initial_query, applyUpdate_initial_query, hbq]
    · rw [applyUpdate_category, applyUpdate_category, hd2, hbcat]
    · rw [applyUpdate_essential, applyUpdate_essential, hd2, hbess]
    · rw [applyUpdate_optional, applyUpdate_optional, hd2, hbopt]
    · rw [applyUpdate_extracted, applyUpdate_extracted, hd2, hbext]
    · rw [applyUpdate_next, applyUpdate_next, hd2, hbnext]
    · exact ⟨_, rfl⟩
  · rw [if_neg hr, if_neg hr]
    rw [ask_question_congr llm _ _ hs2cat hs2ess hs2opt hs2ext]
    refine applyUpdate_congr_of_msg _ _ _ ?_ ?_ ?_ ?_ ?_ ?_ ?_
    · rw [applyUpdate_initial_query, applyUpdate_initial_query, hbq]
    · rw [applyUpdate_category, applyUpdate_category, hd2, hbcat]
    · rw [applyUpdate_essential, applyUpdate_essential, hd2, hbess]
    · rw [applyUpdate_optional, applyUpdate_optional, hd2, hbopt]
    · rw [applyUpdate_extracted, applyUpdate_extracted, hd2, hbext]
    · rw [applyUpdate_next, applyUpdate_next, hd2, hbnext]
    · exact ⟨_, rfl⟩

/-! ## The claims -/

/-- C1: after the checklist in effect at routing time, a turn ends complete
(`is_conversation_complete`, i.e. the router chose the Finalizer) if and only
if every key of `essential_checklist` is a key of `extracted_requirements`
after the parse step; when the state's checklist was already generated
(non-empty essentials) that checklist is exactly the one routed on; an empty
essential checklist at routing time completes immediately, and
`optional_checklist` keys play no part in the condition. -/
theorem completion_iff_essentials_extracted (llm : LLMClient) (s : AgentState)
    (u : String) :
    (is_conversation_complete (run_next_turn llm s u) = true ↔
      ∀ k ∈ (afterParse llm (appendUser s u)).essential_checklist,
        k ∈ dictKeys (afterParse llm (appendUser s u)).extracted_requirements)
    ∧ (s.essential_checklist ≠ [] →
        (afterParse llm (appendUser s u)).essential_checklist = s.essential_checklist)
    ∧ ((afterParse llm (appendUser s u)).essential_checklist = [] →
        is_conversation_complete (run_next_turn llm s u) = true) := by
  have hiff : is_conversation_complete (run_next_turn llm s u) = true ↔
      ∀ k ∈ (afterParse llm (appendUser s u)).essential_checklist,
        k ∈ dictKeys (afterParse llm (appendUser s u)).extracted_requirements := by
    rw [run_next_turn, complete_iff_router, router_node_final_iff]
  refine ⟨hiff, fun hne => ?_, fun hempty => ?_⟩
  · rw [afterParse_essential, stateAtParse_of_nonempty]
    · rfl
    · simpa [appendUser] using hne
  · rw [hiff, hempty]
    intro k hk
    simp at hk

/-- C2 (the code deviates): on the very first turn, checklist generation
appends its system message to the log before parsing runs, so the text the
extraction prompt receives (`state['messages'][-1].content`) is that
system-authored message, not the user's utterance — contradicting the node's
own docstring ("Parses the latest user message"). -/
theorem first_turn_parser_reads_system_message :
    latest_user_message (stateAtParse llmGenCar (initialState "I need a car"))
      = "Generated checklist for Car. Essentials: ['car_type']."
    ∧ (lastMsg (stateAtParse llmGenCar (initialState "I need a car")).messages).role
      = Role.system
    ∧ latest_user_message (stateAtParse llmGenCar (initialState "I need a car"))
      ≠ "I need a car" := by
  refine ⟨by decide, by decide, by decide⟩

/-- C3: when the extraction reply's candidate payload does not decode, the
parse step leaves `extracted_requirements` exactly as it was, no exception
escapes (the step is total), and the turn still reaches the router, which
emits one of the two control signals. -/
theorem malformed_reply_leaves_requirements (llm : LLMClient) (s : AgentState)
    (u : String)
    (h : decoded (llm.complete (update_prompt (stateAtParse llm (appendUser s u)))) = none) :
    (run_next_turn llm s u).extracted_requirements = s.extracted_requirements
    ∧ ((run_next_turn llm s u).next = some "wait_for_user_input"
        ∨ (run_next_turn llm s u).next = some "end_conversation") := by
  constructor
  · rw [run_next_turn, runTurn_extracted, afterParse_extracted]
    simp only [parseMerge, h]
    rw [stateAtParse_extracted]
    rfl
  · rw [run_next_turn, runTurn_next]
    by_cases hr : router_node (afterParse llm (appendUser s u)) = "final_summary"
    · right
      rw [if_pos hr]
    · left
      rw [if_neg hr]

/-- C3 witness: the LLM answers "I don't know"; the mid-conversation state's
empty requirements are unchanged and the turn pauses or completes. -/
theorem malformed_reply_leaves_requirements_witness :
    (run_next_turn llmSaysIDontKnow sMidConversation "not sure yet").extracted_requirements
      = sMidConversation.extracted_requirements
    ∧ ((run_next_turn llmSaysIDontKnow sMidConversation "not sure yet").next
        = some "wait_for_user_input"
      ∨ (run_next_turn llmSaysIDontKnow sMidConversation "not sure yet").next
        = some "end_conversation") :=
  malformed_reply_leaves_requirements llmSaysIDontKnow sMidConversation
    "not sure yet" (by decide)

/-- C4: whatever the parse outcome, no key of the prior requirements is
deleted; on a successful decode a decoded key's value overwrites the stored
one (last write wins) and keys outside the decoded object keep their prior
binding. -/
theorem parse_merge_monotone (prior : List (String × String)) (raw : String)
    (k : String) :
    (k ∈ dictKeys prior → k ∈ dictKeys (parseMerge prior raw))
    ∧ (∀ obj, decoded raw = some obj →
        (k ∈ dictKeys obj → dictFind (parseMerge prior raw) k = dictFind obj k)
        ∧ (k ∉ dictKeys obj → dictFind (parseMerge prior raw) k = dictFind prior k)) := by
  constructor
  · intro hk
    cases hd : decoded raw with
    | none => simpa only [parseMerge, hd] using hk
    | some obj =>
      simp only [parseMerge, hd]
      exact (mem_keys_dictUpdate prior obj k).mpr (Or.inl hk)
  · intro obj hobj
    have hnodup := decoded_nodup raw obj hobj
    simp only [parseMerge, hobj]
    constructor
    · intro hmem
      rw [dictFind_dictUpdate _ _ _ hnodup, if_pos hmem]
    · intro hmem
      rw [dictFind_dictUpdate _ _ _ hnodup, if_neg hmem]

/-- C4 witness: merging the decoded reply into a one-key store keeps the old
key, overwrites its value, and binds the new key. -/
theorem parse_merge_monotone_witness :
    ("a" ∈ dictKeys [("a", "1")] →
      "a" ∈ dictKeys (parseMerge [("a", "1")] "\x7b\"b\": \"2\", \"a\": \"3\"\x7d"))
    ∧ (∀ obj, decoded "\x7b\"b\": \"2\", \"a\": \"3\"\x7d" = some obj →
        ("a" ∈ dictKeys obj →
          dictFind (parseMerge [("a", "1")] "\x7b\"b\": \"2\", \"a\": \"3\"\x7d") "a"
            = dictFind obj "a")
        ∧ ("a" ∉ dictKeys obj →
          dictFind (parseMerge [("a", "1")] "\x7b\"b\": \"2\", \"a\": \"3\"\x7d") "a"
            = dictFind [("a", "1")] "a")) :=
  parse_merge_monotone [("a", "1")] "\x7b\"b\": \"2\", \"a\": \"3\"\x7d" "a"

/-- C5: the candidate JSON payload exists exactly when the reply contains
both an opening and a closing brace; when it exists it is the slice of the
reply from the first opening brace to the last closing brace inclusive, and
when it does not, the merge is skipped. -/
theorem candidate_payload_first_last_brace (raw : String) :
    (candidate raw = none ↔ ¬( '{' ∈ raw.toList ∧ '}' ∈ raw.toList))
    ∧ (∀ c, candidate raw = some c →
        ∃ i j, raw.toList.get? i = some '{'
          ∧ (∀ m, m < i → raw.toList.get? m ≠ some '{')
          ∧ raw.toList.get? j = some '}'
          ∧ (∀ m, j < m → raw.toList.get? m ≠ some '}')
          ∧ c = String.mk (pySlice raw.toList i (j + 1)))
    ∧ (candidate raw = none → ∀ prior, parseMerge prior raw = prior) := by
  refine ⟨?_, ?_, ?_⟩
  · unfold candidate pyFind pyRfind
    cases hf : findIdx '{' raw.toList with
    | none =>
      have hno : '{' ∉ raw.toList := (findIdx_eq_none _ _).mp hf
      cases hr : rfindIdx '}' raw.toList with
      | none =>
        simp only [hf, hr]
        exact iff_of_true trivial (fun hand => hno hand.1)
      | some j =>
        simp only [hf, hr]
        exact iff_of_true trivial (fun hand => hno hand.1)
    | some i =>
      have hyes : '{' ∈ raw.toList :=
        List.get?_mem (findIdx_spec _ _ _ hf).1
      cases hr : rfindIdx '}' raw.toList with
      | none =>
        have hno : '}' ∉ raw.toList := (rfindIdx_eq_none _ _).mp hr
        simp only [hf, hr]
        exact iff_of_true trivial (fun hand => hno hand.2)
      | some j =>
        have hyes2 : '}' ∈ raw.toList :=
          List.get?_mem (rfindIdx_spec _ _ _ hr).1
        simp only [hf, hr]
        exact iff_of_false (Option.some_ne_none _) (fun hn => hn ⟨hyes, hyes2⟩)
  · intro c hc
    unfold candidate pyFind pyRfind at hc
    cases hf : findIdx '{' raw.toList with
    | none =>
      cases hr : rfindIdx '}' raw.toList with
      | none =>
        simp only [hf, hr] at hc
        exact Option.noConfusion hc
      | some j =>
        simp only [hf, hr] at hc
        exact Option.noConfusion hc
    | some i =>
      cases hr : rfindIdx '}' raw.toList with
      | none =>
        simp only [hf, hr] at hc
        exact Option.noConfusion hc
      | some j =>
        simp only [hf, hr, Option.some.injEq] at hc
        obtain ⟨hgf, hbf⟩ := findIdx_spec _ _ _ hf
        obtain ⟨hgr, hbr⟩ := rfindIdx_spec _ _ _ hr
        exact ⟨i, j, hgf, hbf, hgr, hbr, hc.symm⟩
  · intro h prior
    simp [parseMerge, decoded, h]

/-- C6 counterexample: a further turn on a state whose stored
`essential_checklist` is empty (and whose `category` was already set) re-runs
the checklist generator, overwriting `category`, `essential_checklist` and
`optional_checklist`. -/
theorem checklist_regenerated_on_empty_essentials :
    (run_next_turn llmGenLaptop sEmptyEssentials "hello").category
        ≠ sEmptyEssentials.category
    ∧ (run_next_turn llmGenLaptop sEmptyEssentials "hello").essential_checklist
        ≠ sEmptyEssentials.essential_checklist
    ∧ (run_next_turn llmGenLaptop sEmptyEssentials "hello").optional_checklist
        ≠ sEmptyEssentials.optional_checklist := by
  refine ⟨by decide, by decide, by decide⟩

/-- C6 (amended): once `category`, `essential_checklist` and
`optional_checklist` are set with a NON-EMPTY essential list, no later turn
re-runs the generator or changes any of the three fields; with an empty
essential list the entry router regenerates them (see the counterexample). -/
theorem checklist_stable_when_essentials_nonempty (llm : LLMClient)
    (s : AgentState) (u : String) (h : s.essential_checklist ≠ []) :
    (run_next_turn llm s u).category = s.category
    ∧ (run_next_turn llm s u).essential_checklist = s.essential_checklist
    ∧ (run_next_turn llm s u).optional_checklist = s.optional_checklist := by
  have hape : (appendUser s u).essential_checklist ≠ [] := by
    simpa [appendUser] using h
  rw [run_next_turn]
  simp only [runTurn]
  rw [if_neg (conditional_start_of_nonempty _ hape)]
  by_cases hr : router_node (applyChannel (stateAtParse llm (appendUser s u))
      (update_and_parse_node llm (stateAtParse llm (appendUser s u)))) = "final_summary"
  · rw [if_pos hr]
    refine ⟨?_, ?_, ?_⟩
    · rw [applyUpdate_category]
      simp [final_summary_node, applyUpdate_category, update_and_parse_node, appendUser]
    · rw [applyUpdate_essential]
      simp [final_summary_node, applyUpdate_essential, update_and_parse_node, appendUser]
    · rw [applyUpdate_optional]
      simp [final_summary_node, applyUpdate_optional, update_and_parse_node, appendUser]
  · rw [if_neg hr]
    refine ⟨?_, ?_, ?_⟩
    · rw [applyUpdate_category]
      simp [ask_question_node, applyUpdate_category, update_and_parse_node, appendUser]
    · rw [applyUpdate_essential]
      simp [ask_question_node, applyUpdate_essential, update_and_parse_node, appendUser]
    · rw [applyUpdate_optional]
      simp [ask_question_node, applyUpdate_optional, update_and_parse_node, appendUser]

/-- C6 witness: a turn on a generated state (essentials `[budget]`) keeps all
three checklist fields. -/
theorem checklist_stable_witness :
    (run_next_turn llmGenLaptop sMidConversation "hi").category
        = sMidConversation.category
    ∧ (run_next_turn llmGenLaptop sMidConversation "hi").essential_checklist
        = sMidConversation.essential_checklist
    ∧ (run_next_turn llmGenLaptop sMidConversation "hi").optional_checklist
        = sMidConversation.optional_checklist :=
  checklist_stable_when_essentials_nonempty llmGenLaptop sMidConversation "hi"
    (by decide)

/-- C7 counterexample: the merge stores the decoded key `color` although it
belongs to neither checklist (which the turn leaves unchanged). -/
theorem unrecognized_key_stored_counterexample :
    "color" ∈ dictKeys ((run_next_turn llmSaysColor sMidConversation
        "it is red").extracted_requirements)
    ∧ "color" ∉ (sMidConversation.essential_checklist
        ++ sMidConversation.optional_checklist)
    ∧ (run_next_turn llmSaysColor sMidConversation "it is red").essential_checklist
        = sMidConversation.essential_checklist
    ∧ (run_next_turn llmSaysColor sMidConversation "it is red").optional_checklist
        = sMidConversation.optional_checklist := by
  refine ⟨by decide, by decide, by decide, by decide⟩

/-- C7 (amended): the key set of `extracted_requirements` after a parse is
exactly the prior keys united with the decoded object's keys — the merge does
not filter against the checklists (only routing and the summary do). -/
theorem extracted_keys_union_decoded (prior : List (String × String))
    (raw : String) (k : String) :
    k ∈ dictKeys (parseMerge prior raw) ↔
      k ∈ dictKeys prior ∨ k ∈ decodedKeys raw := by
  cases hd : decoded raw with
  | none => simp [parseMerge, decodedKeys, hd]
  | some obj =>
    simp only [parseMerge, decodedKeys, hd]
    exact mem_keys_dictUpdate prior obj k

/-- The Finalizer's accumulating fold equals the header plus the join of the
per-key lines of the present checklist keys. -/
theorem summary_foldl (reqs : List (String × String)) (keys : List String)
    (acc : String) :
    keys.foldl (fun acc key =>
      if dictMem reqs key then
        acc ++ "- " ++ pyTitle (key.replace "_" " ") ++ ": "
          ++ dictGet reqs key "N/A" ++ "\n"
      else acc) acc
    = acc ++ joinStrings (keys.filterMap
        (fun key => (dictFind reqs key).map (summaryLine key))) := by
  induction keys generalizing acc with
  | nil => simp [joinStrings, String.append_empty]
  | cons key rest ih =>
    rw [List.foldl_cons, List.filterMap_cons]
    by_cases hk : dictMem reqs key = true
    · obtain ⟨v, hv⟩ := dictFind_some_of_mem reqs key
        ((dictMem_iff_mem_keys reqs key).mp hk)
      rw [if_pos hk, hv, Option.map_some']
      simp only [joinStrings]
      rw [ih]
      have hget : dictGet reqs key "N/A" = v := by
        rw [dictGet, hv]
        rfl
      rw [hget]
      simp only [summaryLine, String.append_assoc]
    · have hnone : dictFind reqs key = none :=
        (dictFind_eq_none_iff reqs key).mpr
          (fun hmem => hk ((dictMem_iff_mem_keys reqs key).mpr hmem))
      rw [if_neg hk, hnone, Option.map_none']
      exact ih acc

/-- C8: the Finalizer is deterministic (a pure function of the state, no LLM
argument): its one message is the fixed header naming the category followed,
for each essential then optional checklist key present in
`extracted_requirements` (in checklist order), by a line labelled with the
key (underscores to spaces, title-cased) and the stored value — absent keys
produce no line; it emits the `end_conversation` signal and returns no other
state key. -/
theorem final_summary_matches_spec (s : AgentState) :
    (final_summary_node s).messages = some [⟨Role.system, summarySpec s⟩]
    ∧ (final_summary_node s).next = some "end_conversation"
    ∧ (final_summary_node s).extracted_requirements = none
    ∧ (final_summary_node s).category = none
    ∧ (final_summary_node s).essential_checklist = none
    ∧ (final_summary_node s).optional_checklist = none := by
  refine ⟨?_, rfl, rfl, rfl, rfl, rfl⟩
  simp only [final_summary_node]
  rw [summary_foldl]
  rfl

/-- C9: with the LLM collaborator held fixed, continuing from equal states
with equal user input gives byte-identical results (state, latest message,
completion flag); and the result is reproduced even when the second call sees
the message list the first call already extended in place with the same user
message (Python's `current_state["messages"].append` mutates the shared
list). -/
theorem continue_conversation_deterministic (llm : LLMClient)
    (s1 s2 : AgentState) (u1 u2 : String) (hs : s1 = s2) (hu : u1 = u2) :
    run_next_turn llm s1 u1 = run_next_turn llm s2 u2
    ∧ get_agent_response (run_next_turn llm s1 u1)
        = get_agent_response (run_next_turn llm s2 u2)
    ∧ is_conversation_complete (run_next_turn llm s1 u1)
        = is_conversation_complete (run_next_turn llm s2 u2)
    ∧ run_next_turn llm { s1 with messages := s1.messages ++ [⟨Role.human, u1⟩] } u1
        = run_next_turn llm s1 u1 := by
  subst hs
  subst hu
  refine ⟨rfl, rfl, rfl, ?_⟩
  show runTurn llm (appendUser { s1 with messages
      := s1.messages ++ [⟨Role.human, u1⟩] } u1) = runTurn llm (appendUser s1 u1)
  have hrw : appendUser { s1 with messages := s1.messages ++ [⟨Role.human, u1⟩] } u1
      = { appendUser s1 u1 with messages :=
          (s1.messages ++ [⟨Role.human, u1⟩]) ++ [⟨Role.human, u1⟩] } := rfl
  rw [hrw]
  apply runTurn_messages_frame
  rw [lastMsg_append]
  rw [show (appendUser s1 u1).messages = s1.messages ++ [⟨Role.human, u1⟩] from rfl,
    lastMsg_append]

/-- C9 witness: duplicate continuation of the mid-conversation state with the
same input, compared call for call. -/
theorem continue_conversation_deterministic_witness :
    run_next_turn llmGenLaptop sMidConversation "around $900"
        = run_next_turn llmGenLaptop sMidConversation "around $900"
    ∧ get_agent_response (run_next_turn llmGenLaptop sMidConversation "around $900")
        = get_agent_response (run_next_turn llmGenLaptop sMidConversation "around $900")
    ∧ is_conversation_complete (run_next_turn llmGenLaptop sMidConversation "around $900")
        = is_conversation_complete (run_next_turn llmGenLaptop sMidConversation "around $900")
    ∧ run_next_turn llmGenLaptop { sMidConversation with messages :=
        sMidConversation.messages ++ [⟨Role.human, "around $900"⟩] } "around $900"
        = run_next_turn llmGenLaptop sMidConversation "around $900" :=
  continue_conversation_deterministic llmGenLaptop sMidConversation
    sMidConversation "around $900" "around $900" rfl rfl

theorem dictFind_dictRemove_ne (d : List (String × String)) (k a : String)
    (h : a ≠ k) : dictFind (dictRemove d k) a = dictFind d a := by
  induction d with
  | nil => rfl
  | cons p rest ih =>
    simp only [dictRemove, List.filter_cons] at *
    by_cases hp : p.1 = k
    · rw [if_neg (by simp [hp])]
      rw [ih]
      have hpa : ¬ p.1 = a := fun hpa => h (hpa.symm.trans hp)
      simp [dictFind, hpa]
    · rw [if_pos (by simp [hp])]
      by_cases hpa : p.1 = a
      · simp [dictFind, hpa]
      · simp [dictFind, hpa, ih]

/-- C10: a stored key outside both checklists never yields a summary line:
the Finalizer's message is unchanged when such a key is removed (it iterates
over the checklists, not over the extracted keys), the key stays in the state
(the Finalizer returns no `extracted_requirements`), and the summary always
begins with the fixed header naming the category. -/
theorem summary_omits_unrecognized_keys (s : AgentState) (k : String)
    (h1 : k ∉ s.essential_checklist) (h2 : k ∉ s.optional_checklist) :
    (final_summary_node s).messages = (final_summary_node
        { s with
            extracted_requirements := dictRemove s.extracted_requirements k }).messages
    ∧ (final_summary_node s).extracted_requirements = none
    ∧ (∃ rest, summarySpec s
        = ("Great! Your requirement for a '" ++ s.category
            ++ "' is ready to be sent for processing. Here is the summary:\n") ++ rest) := by
  have hjoin : (s.essential_checklist ++ s.optional_checklist).filterMap
        (fun key => (dictFind s.extracted_requirements key).map (summaryLine key))
      = (s.essential_checklist ++ s.optional_checklist).filterMap
        (fun key => (dictFind (dictRemove s.extracted_requirements k) key).map
          (summaryLine key)) := by
    refine List.filterMap_congr (fun key hkey => ?_)
    have hne : key ≠ k := by
      rcases List.mem_append.mp hkey with hmem | hmem
      · exact fun hk => h1 (hk ▸ hmem)
      · exact fun hk => h2 (hk ▸ hmem)
    rw [dictFind_dictRemove_ne _ _ _ hne]
  have key : ∀ t : AgentState, t.category = s.category →
      t.essential_checklist = s.essential_checklist →
      t.optional_checklist = s.optional_checklist →
      t.extracted_requirements = dictRemove s.extracted_requirements k →
      (final_summary_node s).messages = (final_summary_node t).messages := by
    intro t hcat hess hopt hext
    simp only [final_summary_node]
    rw [summary_foldl, summary_foldl, hcat, hess, hopt, hext, hjoin]
  exact ⟨key _ rfl rfl rfl rfl, rfl, ⟨_, rfl⟩⟩

/-- C10 witness: the rogue key of `sWithRogueKey` leaves no trace in the
summary. -/
theorem summary_omits_unrecognized_keys_witness :
    (final_summary_node sWithRogueKey).messages = (final_summary_node
        { sWithRogueKey with
            extracted_requirements := dictRemove sWithRogueKey.extracted_requirements "rogue" }).messages
    ∧ (final_summary_node sWithRogueKey).extracted_requirements = none
    ∧ (∃ rest, summarySpec sWithRogueKey
        = ("Great! Your requirement for a '" ++ sWithRogueKey.category
            ++ "' is ready to be sent for processing. Here is the summary:\n") ++ rest) :=
  summary_omits_unrecognized_keys sWithRogueKey "rogue" (by decide) (by decide)

end AgentE
